import Mathlib

/-!
Verification development for the Adobe-Hackathon PDF intelligence system.

Round 1A (`extract_outline.py`): a heading/outline extractor driven by
numbering patterns and font statistics.

Round 1B (`document_intelligence.py`): persona-driven relevance ranking of
sections and subsections.

The embedding is shallow: Python strings are `String`, floats that carry
font sizes and relevance scores are `ℚ`, external collaborators (the PDF
layout reader, the sentence tokenizer `sent_tokenize`, the sentence
embedding model and the cosine-similarity kernel) are explicit function
parameters, and fallible document opening is `Except`.
-/

/-! ## Python string primitives -/

/-- Whitespace characters recognised by Python's `str.strip`, `str.split`
and the regex class `\s` (ASCII range). -/
def isPyWs (c : Char) : Bool :=
  c == ' ' || c == '\t' || c == '\n' || c == '\r' || c == '\x0b' || c == '\x0c'

/-- Python `str.strip()`: drop leading and trailing whitespace. -/
def pyStrip (s : String) : String :=
  String.mk (((s.data.dropWhile isPyWs).reverse.dropWhile isPyWs).reverse)

/-- Helper for `pySplit`: split a character list on whitespace runs. -/
def splitWsAux : List Char → List Char → List (List Char)
  | [], [] => []
  | [], w => [w.reverse]
  | c :: cs, w =>
    if isPyWs c then
      if w = [] then splitWsAux cs [] else w.reverse :: splitWsAux cs []
    else splitWsAux cs (c :: w)

/-- Python `str.split()` with no argument: whitespace-separated words,
empty strings never produced. -/
def pySplit (s : String) : List String :=
  (splitWsAux s.data []).map String.mk

/-- Python `' '.join(xs)`. -/
def joinSpace (xs : List String) : String :=
  String.intercalate " " xs

/-- Python slicing `s[:n]` on a string (by characters). -/
def takeChars (n : Nat) (s : String) : String :=
  String.mk (s.data.take n)

/-- Boolean substring test on character lists (Python `needle in hay`). -/
def hasSubstr : List Char → List Char → Bool
  | hay, needle =>
    match hay with
    | [] => needle.isEmpty
    | _ :: t => needle.isPrefixOf hay || hasSubstr t needle

/-- Python `s.endswith(c)` for a single-character suffix. -/
def pyEndsWith (s : String) (c : Char) : Bool :=
  s.data.getLast? == some c

/-- Python `str.lower()` (ASCII case folding). -/
def lowerStr (s : String) : String :=
  String.mk (s.data.map Char.toLower)

/-- Python `str.isupper()`: at least one cased character, and no cased
character is lower-case. -/
def pyIsUpper (s : String) : Bool :=
  s.data.any Char.isAlpha && s.data.all (fun c => !c.isLower)

/-- Python `round(x, 1)` (round half to even, at one decimal place). -/
def round1 (q : ℚ) : ℚ :=
  (let y := 10 * q
   let f := ⌊y⌋
   let r := y - f
   if r < 1/2 then (f : ℚ) else if r > 1/2 then (f : ℚ) + 1
   else if Even f then (f : ℚ) else (f : ℚ) + 1) / 10

/-! ## A regular-expression engine (Brzozowski derivatives)

Faithful executable semantics for the five `re.match` numbering patterns of
`extract_outline.py`.  `re.match(p, s)` with a pattern of the form
`^core$` holds iff `core` matches all of `s`, or all of `s` minus a single
trailing newline (Python `$` semantics); we therefore encode each pattern
as a full match of `core` followed by an optional `'\n'`. -/

inductive Rx where
  | emp : Rx
  | eps : Rx
  | cls : (Char → Bool) → Rx
  | cat : Rx → Rx → Rx
  | alt : Rx → Rx → Rx
  | star : Rx → Rx

/-- Does the regex accept the empty string? -/
def Rx.nullable : Rx → Bool
  | .emp => false
  | .eps => true
  | .cls _ => false
  | .cat a b => a.nullable && b.nullable
  | .alt a b => a.nullable || b.nullable
  | .star _ => true

/-- Brzozowski derivative with respect to one character. -/
def Rx.deriv : Rx → Char → Rx
  | .emp, _ => .emp
  | .eps, _ => .emp
  | .cls p, c => if p c then .eps else .emp
  | .cat a b, c =>
    if a.nullable then .alt (.cat (a.deriv c) b) (b.deriv c) else .cat (a.deriv c) b
  | .alt a b, c => .alt (a.deriv c) (b.deriv c)
  | .star a, c => .cat (a.deriv c) (.star a)

/-- Full-match of a regex against a character list. -/
def Rx.matchList : Rx → List Char → Bool
  | r, [] => r.nullable
  | r, c :: cs => (r.deriv c).matchList cs

/-- Full-match of a regex against a string. -/
def Rx.matchStr (r : Rx) (s : String) : Bool :=
  r.matchList s.data

/-- `r+` (one or more). -/
def Rx.plus (r : Rx) : Rx := .cat r (.star r)

/-- `r?` (zero or one). -/
def Rx.opt (r : Rx) : Rx := .alt r .eps

/-- A single literal character. -/
def chC (c : Char) : Rx := .cls (fun x => x == c)

/-- Regex class `\s`. -/
def wsC : Rx := .cls isPyWs

/-- Regex class `\d`. -/
def digitC : Rx := .cls Char.isDigit

/-- Regex `.` (any character except newline). -/
def anyC : Rx := .cls (fun c => c != '\n')

/-- `\s* X` prefix shared by all numbering patterns. -/
def numPat (groups : Rx) : Rx :=
  .cat (.star wsC) (.cat groups (.cat (Rx.plus wsC) (.cat (Rx.plus anyC) (Rx.opt (chC '\n')))))

/-- Pattern `^\s*(\d+\.?)\s+(.+)$` — e.g. `1. Introduction`. -/
def pat1 : Rx := numPat (.cat (Rx.plus digitC) (Rx.opt (chC '.')))

/-- Pattern `^\s*(\d+\.\d+\.?)\s+(.+)$` — e.g. `1.1 Overview`. -/
def pat2 : Rx :=
  numPat (.cat (Rx.plus digitC) (.cat (chC '.') (.cat (Rx.plus digitC) (Rx.opt (chC '.')))))

/-- Pattern `^\s*(\d+\.\d+\.\d+\.?)\s+(.+)$` — e.g. `1.1.1 Details`. -/
def pat3 : Rx :=
  numPat (.cat (Rx.plus digitC)
    (.cat (chC '.') (.cat (Rx.plus digitC)
      (.cat (chC '.') (.cat (Rx.plus digitC) (Rx.opt (chC '.')))))))

/-- Pattern `^\s*([A-Z]\.?)\s+(.+)$` — e.g. `A. Section`. -/
def pat4 : Rx :=
  numPat (.cat (.cls (fun c => 'A' ≤ c && c ≤ 'Z')) (Rx.opt (chC '.')))

/-- Pattern `^\s*([IVX]+\.?)\s+(.+)$` — Roman numerals. -/
def pat5 : Rx :=
  numPat (.cat (Rx.plus (.cls (fun c => c == 'I' || c == 'V' || c == 'X'))) (Rx.opt (chC '.')))

/-- The numbered patterns in source priority order, each paired with the
level the source computes from the pattern string's `\.` count
(one `\.` occurrence → 1, two → 2, three → 3). -/
def numberedPatterns : List (Rx × Nat) :=
  [(pat1, 1), (pat2, 2), (pat3, 3), (pat4, 1), (pat5, 1)]

/-- Level of the first numbered pattern matching the text, if any. -/
def firstNumberedMatch (text : String) : Option Nat :=
  (numberedPatterns.find? (fun rl => rl.1.matchStr text)).map (·.2)

/-! ## Round 1A data model -/

/-- A styled run within a line (`span` dictionaries of the source). -/
structure SpanInfo where
  text : String
  font : String
  size : ℚ
  flags : Nat
  deriving Repr, DecidableEq

/-- A text fragment: one visual line with its spans and 1-based page. -/
structure Block where
  text : String
  spans : List SpanInfo
  page : Nat
  deriving Repr, DecidableEq

/-- An accepted heading record of the emitted outline. -/
structure Heading where
  level : String
  text : String
  page : Nat
  deriving Repr, DecidableEq

/-- The emitted result of `process_pdf`. -/
structure OutlineResult where
  title : String
  outline : List Heading
  deriving Repr, DecidableEq

/-- A page as the layout reader presents it to the extractor: the ordered
text lines, each a list of raw spans (image blocks already absent). -/
abbrev PageData := List (List SpanInfo)

/-- `extract_text_with_formatting`: one block per line whose stripped text
is non-empty; span sizes are rounded to one decimal. -/
def extract_text_with_formatting (page : PageData) (pageNo : Nat) : List Block :=
  page.foldr
    (fun line acc =>
      let lineText := String.join (line.map (·.text))
      if pyStrip lineText ≠ "" then
        { text := pyStrip lineText
          spans := line.map (fun sp => { sp with size := round1 sp.size })
          page := pageNo } :: acc
      else acc)
    []

/-- All blocks of a document, pages enumerated from 1 (`enumerate(doc)`). -/
def extractAllBlocks : List PageData → Nat → List Block
  | [], _ => []
  | p :: ps, n => extract_text_with_formatting p n ++ extractAllBlocks ps (n + 1)

/-- Font statistics of a document. -/
structure FontStats where
  body_size : ℚ
  sizes : List ℚ
  deriving Repr, DecidableEq

/-- Add `n` characters to the accumulator entry keyed by size `k`,
preserving first-encounter (dict insertion) order. -/
def bumpKey : List (ℚ × Nat) → ℚ → Nat → List (ℚ × Nat)
  | [], k, n => [(k, n)]
  | (k0, m) :: rest, k, n =>
    if k0 = k then (k0, m + n) :: rest else (k0, m) :: bumpKey rest k n

/-- Character counts per font size, in first-encounter order. -/
def fontSizeCounts (blocks : List Block) : List (ℚ × Nat) :=
  blocks.foldl
    (fun acc b => b.spans.foldl (fun a sp => bumpKey a sp.size sp.text.length) acc)
    []

/-- Python `max(items, key)`: the first item with maximal key. -/
def maxBySnd (cur : ℚ × Nat) : List (ℚ × Nat) → ℚ × Nat
  | [] => cur
  | x :: rest => maxBySnd (if x.2 > cur.2 then x else cur) rest

/-- `calculate_font_statistics`: body size is the size covering the most
characters; `none` when the document has no spans. -/
def calculate_font_statistics (blocks : List Block) : Option FontStats :=
  match fontSizeCounts blocks with
  | [] => none
  | c :: cs =>
    some
      { body_size := (maxBySnd c cs).1
        sizes := ((c :: cs).map (·.1)).mergeSort (fun a b => decide (b ≤ a)) }

/-- Python `max(spans, key=len(text))`: first span of maximal text length. -/
def mainSpanAux (cur : SpanInfo) : List SpanInfo → SpanInfo
  | [] => cur
  | s :: rest => mainSpanAux (if s.text.length > cur.text.length then s else cur) rest

/-- Dominant span of a span list (unused default on the empty list, which
every caller guards against). -/
def mainSpanOf : List SpanInfo → SpanInfo
  | [] => { text := "", font := "", size := 0, flags := 0 }
  | s :: rest => mainSpanAux s rest

/-- Structural keyword list of the classifier. -/
def headingKeywords : List String :=
  ["introduction", "conclusion", "abstract", "summary",
   "chapter", "section", "overview", "background",
   "methodology", "results", "discussion", "references"]

/-- Case-insensitive structural-keyword substring test. -/
def hasKeyword (text : String) : Bool :=
  headingKeywords.any (fun kw => hasSubstr (lowerStr text).data kw.data)

/-- First-character capitalisation test (`text[0].isupper()`); the source
only evaluates it on non-empty block texts. -/
def headIsUpper (text : String) : Bool :=
  match text.data with
  | [] => false
  | c :: _ => c.isUpper

/-- `is_likely_heading`: numbering patterns first, then the font-statistics
branch.  Returns `(isHeading, level)`. -/
def is_likely_heading (block : Block) (fontStats : Option FontStats) : Bool × Nat :=
  let text := block.text
  if text.length > 200 then (false, 0)
  else
    match firstNumberedMatch text with
    | some lvl => (true, lvl)
    | none =>
      match fontStats, block.spans with
      | some fs, s :: rest =>
        let ms := mainSpanAux s rest
        let isBold := ms.flags.land 16 != 0
        if ms.size > fs.body_size * (12/10) || isBold then
          let lvl :=
            if ms.size > fs.body_size * (3/2) then 1
            else if ms.size > fs.body_size * (13/10) then 2
            else 3
          if (pySplit text).length ≤ 10 then
            if hasKeyword text || isBold || pyIsUpper text then (true, lvl)
            else if headIsUpper text && !(pyEndsWith text '.') then (true, lvl)
            else (false, 0)
          else (false, 0)
        else (false, 0)
      | _, _ => (false, 0)

/-- The character class of the heading-cleaning regex
`^\s*[\d\.\-\â€¢\*]+\s*` exactly as the source file encodes it: the three
characters `â`, `€`, `¢` are the UTF-8 bytes of `•` mis-decoded, so the
class does not contain the bullet `•` itself. -/
def stripClassChar (c : Char) : Bool :=
  c.isDigit || c == '.' || c == '-' || c == 'â' || c == '€' || c == '¢' || c == '*'

/-- `re.sub(r'^\s*[\d\.\-\â€¢\*]+\s*', '', text).strip()`: remove one
leading run of class characters (with surrounding whitespace) when such a
run exists, then strip. -/
def cleanHeadingText (s : String) : String :=
  let cs := s.data
  let afterWs := cs.dropWhile isPyWs
  let stripped :=
    if afterWs.takeWhile stripClassChar = [] then cs
    else (afterWs.dropWhile stripClassChar).dropWhile isPyWs
  pyStrip (String.mk stripped)

/-- Modelled from the spec: the heading-text cleaning the spec describes
(§4.3 "strip a leading run of digits/dots/dashes/bullet characters and
surrounding whitespace, then trim"), with the bullet characters being the
actual bullet `•` and the plain-text bullet `*`.  For comparison with the
source's `cleanHeadingText`, whose character class instead contains the
three mojibake characters `â`, `€`, `¢`. -/
def specStripClassChar (c : Char) : Bool :=
  c.isDigit || c == '.' || c == '-' || c == '•' || c == '*'

/-- Modelled from the spec: cleaning of an accepted heading's text as the
spec states it (see `specStripClassChar`). -/
def specCleanHeadingText (s : String) : String :=
  let cs := s.data
  let afterWs := cs.dropWhile isPyWs
  let stripped :=
    if afterWs.takeWhile specStripClassChar = [] then cs
    else (afterWs.dropWhile specStripClassChar).dropWhile isPyWs
  pyStrip (String.mk stripped)

/-- The heading-collection loop of `process_pdf`: classify each block,
clean its text, skip empty or already-seen texts. -/
def collectHeadings (fontStats : Option FontStats) : List Block → List String → List Heading
  | [], _ => []
  | b :: bs, seen =>
    let r := is_likely_heading b fontStats
    if r.1 then
      let t := cleanHeadingText b.text
      if t ≠ "" && !(seen.contains t) then
        { level := "H" ++ toString r.2, text := t, page := b.page } :: collectHeadings fontStats bs (t :: seen)
      else collectHeadings fontStats bs seen
    else collectHeadings fontStats bs seen

/-- The title-candidate fold of `extract_title` over the first ten
first-page blocks. -/
def titleFold : List Block → ℚ → Option String → Option String
  | [], _, cand => cand
  | b :: bs, mx, cand =>
    match b.spans with
    | [] => titleFold bs mx cand
    | s :: rest =>
      let ms := mainSpanAux s rest
      if ms.size > mx && b.text.length < 150 then titleFold bs ms.size (some b.text)
      else titleFold bs mx cand

/-- `extract_title`: largest-font candidate among the first ten first-page
blocks with text shorter than 150 characters. -/
def extract_title (_allBlocks firstPageBlocks : List Block) : String :=
  if firstPageBlocks = [] then "Untitled Document"
  else
    match titleFold (firstPageBlocks.take 10) 0 none with
    | some t => if t = "" then "Untitled Document" else t
    | none => "Untitled Document"

/-- `process_pdf`: a document that fails to open or extract yields the
sentinel result; otherwise blocks are collected, statistics computed,
headings classified, cleaned, deduplicated and sorted by page. -/
def process_pdf : Except String (List PageData) → OutlineResult
  | .error _ => { title := "Error Processing Document", outline := [] }
  | .ok pages =>
    let allBlocks := extractAllBlocks pages 1
    let fs := calculate_font_statistics allBlocks
    let fpb := allBlocks.filter (fun b => b.page == 1)
    let title := extract_title allBlocks fpb
    let headings := collectHeadings fs allBlocks []
    { title := title
      outline := headings.mergeSort (fun a b => decide (a.page ≤ b.page)) }

/-- `process_directory`: each batch entry is processed independently. -/
def process_directory (inputs : List (Except String (List PageData))) : List OutlineResult :=
  inputs.map process_pdf

/-! ## Round 1B data model (`document_intelligence.py`)

The sentence tokenizer (`nltk.sent_tokenize`), the sentence-embedding
model (`SentenceTransformer.encode`) and the cosine-similarity kernel
(`sklearn cosine_similarity`) are external providers, passed as function
parameters `tok`, `encode` and `cos`. -/

/-- Embedding vectors. -/
abbrev Vec := List ℚ

/-- A section as handed to the relevance pipeline: title, 1-based page and
accumulated body text. -/
structure PSection where
  title : String
  page : Nat
  content : String
  deriving Repr, DecidableEq

/-- A subsection: paragraph text and its extractive summary. -/
structure Subsec where
  text : String
  summary : String
  deriving Repr, DecidableEq

/-- `generate_summary`: verbatim for ≤ 30 words or ≤ 2 sentences,
otherwise the first sentence. -/
def generate_summary (tok : String → List String) (text : String) : String :=
  if (pySplit text).length ≤ 30 then text
  else
    let sentences := tok text
    if sentences.length ≤ 2 then text
    else sentences.headD text

/-- One step of the sentence-grouping loop of `extract_subsections`:
state is (emitted subsections, current paragraph). -/
def subsecStep (tok : String → List String) (st : List Subsec × List String)
    (sent : String) : List Subsec × List String :=
  let cp := st.2 ++ [sent]
  if cp.length ≥ 3 || pyEndsWith sent ':' || (joinSpace cp).length > 200 then
    let pt := joinSpace cp
    (if (pySplit pt).length > 10 then st.1 ++ [⟨pt, generate_summary tok pt⟩] else st.1, [])
  else (st.1, cp)

/-- `extract_subsections`: group sentences into paragraphs, keep paragraphs
of more than 10 words. -/
def extract_subsections (tok : String → List String) (content : String) : List Subsec :=
  let r := (tok content).foldl (subsecStep tok) ([], [])
  if r.2 ≠ [] then
    let pt := joinSpace r.2
    if (pySplit pt).length > 10 then r.1 ++ [⟨pt, generate_summary tok pt⟩] else r.1
  else r.1

/-- Modelled from the spec (§4.5), for comparison with the source's
`extract_subsections`: group consecutive sentences into a paragraph until
3 sentences accumulated, the last sentence ends with a colon, or the
joined paragraph exceeds 200 characters; flush the final open paragraph. -/
def specGroupParasAux : List String → List String → List (List String)
  | cur, [] => if cur = [] then [] else [cur]
  | cur, s :: rest =>
    let cur2 := cur ++ [s]
    if cur2.length ≥ 3 || pyEndsWith s ':' || (joinSpace cur2).length > 200 then
      cur2 :: specGroupParasAux [] rest
    else specGroupParasAux cur2 rest

/-- Modelled from the spec (§4.5): the paragraph grouping of a sentence
list. -/
def specGroupParas (sentences : List String) : List (List String) :=
  specGroupParasAux [] sentences

/-- `combined = 0.7 * query + 0.3 * persona` (componentwise). -/
def combineVec (q p : Vec) : Vec :=
  q.zipWith (fun a b => (7/10) * a + (3/10) * b) p

/-- `calculate_relevance`: similarity of the item embedding against the
weighted combination; `cos` is the external cosine-similarity kernel. -/
def calculate_relevance (cos : Vec → Vec → ℚ) (e q p : Vec) : ℚ :=
  cos e (combineVec q p)

/-- An internally scored section record (before rank assignment). -/
structure SecRecord where
  document : String
  page : Nat
  title : String
  relevance : ℚ
  content_preview : String
  deriving Repr, DecidableEq

/-- An emitted section record: the relevance score is structurally absent,
only the rank remains. -/
structure SecOut where
  document : String
  page : Nat
  title : String
  content_preview : String
  importance_rank : Nat
  deriving Repr, DecidableEq

/-- An internally scored subsection record. -/
structure SubRecord where
  document : String
  section_title : String
  page : Nat
  subsection_idx : Nat
  refined_text : String
  relevance : ℚ
  deriving Repr, DecidableEq

/-- An emitted subsection record (no relevance field). -/
structure SubOut where
  document : String
  section_title : String
  page : Nat
  subsection_idx : Nat
  refined_text : String
  importance_rank : Nat
  deriving Repr, DecidableEq

/-- `content_preview`: body text truncated to 200 characters plus an
ellipsis when longer. -/
def previewOf (c : String) : String :=
  if c.length > 200 then takeChars 200 c ++ "..." else c

/-- The probe text embedded for a section: title plus the first 500
characters of the body (`f"{title} {content[:500]}"`). -/
def probeText (sec : PSection) : String :=
  sec.title ++ " " ++ takeChars 500 sec.content

/-- The scored record the pipeline appends for one section. -/
def secRecordOf (encode : String → Vec) (cos : Vec → Vec → ℚ) (jobE personaE : Vec)
    (docName : String) (sec : PSection) : SecRecord :=
  { document := docName
    page := sec.page
    title := sec.title
    relevance := calculate_relevance cos (encode (probeText sec)) jobE personaE
    content_preview := previewOf sec.content }

/-- The scored records the pipeline appends for one section's subsections,
indexed by enumeration order. -/
def subRecordsOf (encode : String → Vec) (cos : Vec → Vec → ℚ) (tok : String → List String)
    (jobE personaE : Vec) (docName : String) (sec : PSection) : List SubRecord :=
  (extract_subsections tok sec.content).enum.map
    (fun p =>
      { document := docName
        section_title := sec.title
        page := sec.page
        subsection_idx := p.1
        refined_text := p.2.summary
        relevance := calculate_relevance cos (encode p.2.summary) jobE personaE })

/-- The nested accumulation loop of `process_documents`: for each document
and each of its sections, append the section record and the subsection
records. -/
def gatherCandidates (encode : String → Vec) (cos : Vec → Vec → ℚ)
    (tok : String → List String) (jobE personaE : Vec)
    (docs : List (String × List PSection)) : List SecRecord × List SubRecord :=
  docs.foldl
    (fun acc d =>
      d.2.foldl
        (fun acc2 sec =>
          (acc2.1 ++ [secRecordOf encode cos jobE personaE d.1 sec],
           acc2.2 ++ subRecordsOf encode cos tok jobE personaE d.1 sec))
        acc)
    ([], [])

/-- Descending relevance order used by the ranker (stable sort). -/
def descBySec (a b : SecRecord) : Bool := decide (b.relevance ≤ a.relevance)

/-- Descending relevance order for subsection records. -/
def descBySub (a b : SubRecord) : Bool := decide (b.relevance ≤ a.relevance)

/-- Projection of a sorted position to an emitted section record:
`importance_rank = position + 1`, relevance dropped. -/
def rankSec (p : Nat × SecRecord) : SecOut :=
  { document := p.2.document
    page := p.2.page
    title := p.2.title
    content_preview := p.2.content_preview
    importance_rank := p.1 + 1 }

/-- Projection of a sorted position to an emitted subsection record. -/
def rankSub (p : Nat × SubRecord) : SubOut :=
  { document := p.2.document
    section_title := p.2.section_title
    page := p.2.page
    subsection_idx := p.2.subsection_idx
    refined_text := p.2.refined_text
    importance_rank := p.1 + 1 }

/-- The final output of `process_documents` (the pure fields; the
processing timestamp is environment state and is not modelled). -/
structure OutputResult where
  input_documents : List String
  persona : String
  job_to_be_done : String
  extracted_sections : List SecOut
  subsection_analysis : List SubOut
  deriving Repr, DecidableEq

/-- `process_documents`: embed persona and job, score every section and
subsection, sort each pool by relevance descending (stable), assign dense
1-based ranks, drop the score, truncate to the top 15 sections and top 20
subsections. -/
def process_documents (encode : String → Vec) (cos : Vec → Vec → ℚ)
    (tok : String → List String) (persona job : String)
    (docs : List (String × List PSection)) : OutputResult :=
  let personaE := encode persona
  let jobE := encode job
  let cands := gatherCandidates encode cos tok jobE personaE docs
  let sortedSecs := cands.1.mergeSort descBySec
  let sortedSubs := cands.2.mergeSort descBySub
  { input_documents := docs.map (·.1)
    persona := persona
    job_to_be_done := job
    extracted_sections := (sortedSecs.enum.map rankSec).take 15
    subsection_analysis := (sortedSubs.enum.map rankSub).take 20 }

/-! ## Theorems -/

/-- C9: a fragment longer than 200 characters is never classified as a
heading, regardless of any other property. -/
theorem claim_C9 (b : Block) (stats : Option FontStats) (h : b.text.length > 200) :
    is_likely_heading b stats = (false, 0) := by
  unfold is_likely_heading
  simp [h]

set_option maxRecDepth 4000 in
/-- Witness for C9: a 250-character bold, oversized fragment is rejected. -/
theorem claim_C9_witness :
    (String.mk (List.replicate 250 'a')).length > 200
    ∧ is_likely_heading
        ⟨String.mk (List.replicate 250 'a'), [⟨"x", "F", 99, 16⟩], 1⟩
        (some ⟨10, [99, 10]⟩) = (false, 0) :=
  ⟨by decide, claim_C9 _ _ (by decide)⟩

/-- C4: a failing document yields the sentinel result, every other batch
entry is processed normally, and batch output size equals batch input
size. -/
theorem claim_C4 (inputs : List (Except String (List PageData))) :
    (process_directory inputs).length = inputs.length
    ∧ (∀ i : Nat, (process_directory inputs)[i]? = inputs[i]?.map process_pdf)
    ∧ (∀ e : String,
        process_pdf (.error e) = { title := "Error Processing Document", outline := [] }) :=
  ⟨by simp [process_directory], fun i => by simp [process_directory], fun _ => rfl⟩

/-- C3: a fragment of admissible length matching a numbering pattern is
accepted with the level of the first matching pattern (1 for one group, 2
for two, 3 for three, per `numberedPatterns`); `"1. Introduction"` yields
level 1 and cleaned text `"Introduction"`, `"2.3 Background"` yields level
2 and cleaned text `"Background"`. -/
theorem claim_C3 :
    (∀ (b : Block) (stats : Option FontStats) (lvl : Nat),
        b.text.length ≤ 200 → firstNumberedMatch b.text = some lvl →
        is_likely_heading b stats = (true, lvl))
    ∧ firstNumberedMatch "1. Introduction" = some 1
    ∧ cleanHeadingText "1. Introduction" = "Introduction"
    ∧ firstNumberedMatch "2.3 Background" = some 2
    ∧ cleanHeadingText "2.3 Background" = "Background" := by
  refine ⟨?_, by decide, by decide, by decide, by decide⟩
  intro b stats lvl hlen hm
  unfold is_likely_heading
  rw [if_neg (by omega), hm]

/-- Witness for C3: the general pattern statement applied to the concrete
fragment `"1. Introduction"`. -/
theorem claim_C3_witness :
    is_likely_heading { text := "1. Introduction", spans := [], page := 1 } none = (true, 1) :=
  claim_C3.1 _ none 1 (by decide) (by decide)

/-- C10: every block produced by the fragment reader has non-empty text,
so the classifier's first-character check is always well-defined. -/
theorem claim_C10 (page : PageData) (n : Nat) (b : Block)
    (hb : b ∈ extract_text_with_formatting page n) : b.text ≠ "" ∧ b.text.data ≠ [] := by
  induction page with
  | nil => simp [extract_text_with_formatting] at hb
  | cons line rest ih =>
    rw [extract_text_with_formatting] at hb ih
    simp only [List.foldr_cons] at hb
    by_cases hc : pyStrip (String.join (line.map (·.text))) ≠ ""
    · rw [if_pos hc] at hb
      rcases List.mem_cons.mp hb with h1 | h2
      · subst h1
        refine ⟨hc, ?_⟩
        intro hd
        exact hc (by cases hstr : pyStrip (String.join (line.map (·.text))) with
          | mk d => simp_all)
      · exact ih h2
    · rw [if_neg hc] at hb
      exact ih hb

/-- Witness for C10: a concrete one-line page produces a block with
non-empty text. -/
theorem claim_C10_witness :
    ((⟨"Intro", [⟨"Intro", "F", round1 10, 0⟩], 1⟩ : Block)
      ∈ extract_text_with_formatting [[⟨"Intro", "F", 10, 0⟩]] 1)
    ∧ ("Intro" : String) ≠ "" ∧ ("Intro" : String).data ≠ [] := by
  have hb : (⟨"Intro", [⟨"Intro", "F", round1 10, 0⟩], 1⟩ : Block)
      ∈ extract_text_with_formatting [[⟨"Intro", "F", 10, 0⟩]] 1 := by
    have h : extract_text_with_formatting [[(⟨"Intro", "F", (10:ℚ), 0⟩ : SpanInfo)]] 1
        = [⟨"Intro", [⟨"Intro", "F", round1 10, 0⟩], 1⟩] := by
      rw [extract_text_with_formatting]
      simp only [List.foldr_cons, List.foldr_nil, List.map_cons, List.map_nil]
      rw [if_pos (by decide)]
      simp [pyStrip]
      decide
    rw [h]
    exact List.mem_singleton.mpr rfl
  exact ⟨hb, claim_C10 _ _ _ hb⟩

/-- C8: with font statistics available and no numbering match, a fragment
is accepted only when its dominant span is oversized (ratio above 1.2) or
bold, its word count is at most 10, and a keyword/bold/upper-case/
capitalised-without-period condition holds; the level follows the 1.5 and
1.3 ratio thresholds.  A bold 11pt `"Methodology"` fragment over a 10pt
body is accepted. -/
theorem claim_C8 :
    (∀ (b : Block) (fs : FontStats) (s0 : SpanInfo) (srest : List SpanInfo),
      b.spans = s0 :: srest →
      b.text.length ≤ 200 →
      firstNumberedMatch b.text = none →
      ((is_likely_heading b (some fs)).1 = true →
        (mainSpanAux s0 srest).size > fs.body_size * (12/10)
          ∨ (mainSpanAux s0 srest).flags.land 16 ≠ 0)
      ∧ ((is_likely_heading b (some fs)).1 = true →
        (pySplit b.text).length ≤ 10
        ∧ (hasKeyword b.text = true ∨ (mainSpanAux s0 srest).flags.land 16 ≠ 0
            ∨ pyIsUpper b.text = true
            ∨ (headIsUpper b.text = true ∧ pyEndsWith b.text '.' = false)))
      ∧ ((is_likely_heading b (some fs)).1 = true →
        (is_likely_heading b (some fs)).2 =
          (if (mainSpanAux s0 srest).size > fs.body_size * (3/2) then 1
           else if (mainSpanAux s0 srest).size > fs.body_size * (13/10) then 2 else 3)))
    ∧ is_likely_heading
        ⟨"Methodology", [⟨"F", "B", 11, 16⟩], 1⟩
        (some ⟨10, [11, 10]⟩) = (true, 3) := by
  constructor
  · intro b fs s0 srest hspans hlen hnum
    unfold is_likely_heading
    rw [if_neg (by omega), hnum, hspans]
    simp only
    by_cases hgate : (decide ((mainSpanAux s0 srest).size > fs.body_size * (12/10))
        || ((mainSpanAux s0 srest).flags.land 16) != 0) = true
    · rw [if_pos hgate]
      by_cases hwc : (pySplit b.text).length ≤ 10
      · rw [if_pos hwc]
        by_cases hkw : (hasKeyword b.text || ((mainSpanAux s0 srest).flags.land 16) != 0
            || pyIsUpper b.text) = true
        · rw [if_pos hkw]
          simp only [Bool.or_eq_true, decide_eq_true_eq, bne_iff_ne, ne_eq] at hgate hkw
          refine ⟨fun _ => hgate, fun _ => ⟨hwc, ?_⟩, fun _ => rfl⟩
          rcases hkw with (h | h) | h
          exacts [Or.inl h, Or.inr (Or.inl h), Or.inr (Or.inr (Or.inl h))]
        · rw [if_neg hkw]
          by_cases hcap : (headIsUpper b.text && !(pyEndsWith b.text '.')) = true
          · rw [if_pos hcap]
            simp only [Bool.or_eq_true, decide_eq_true_eq, bne_iff_ne, ne_eq] at hgate
            simp only [Bool.and_eq_true, Bool.not_eq_true'] at hcap
            exact ⟨fun _ => hgate, fun _ => ⟨hwc, Or.inr (Or.inr (Or.inr hcap))⟩, fun _ => rfl⟩
          · rw [if_neg hcap]
            exact ⟨fun h => by simp at h, fun h => by simp at h, fun h => by simp at h⟩
      · rw [if_neg hwc]
        exact ⟨fun h => by simp at h, fun h => by simp at h, fun h => by simp at h⟩
    · rw [if_neg hgate]
      exact ⟨fun h => by simp at h, fun h => by simp at h, fun h => by simp at h⟩
  · have hnum : firstNumberedMatch "Methodology" = none := by decide
    unfold is_likely_heading
    rw [if_neg (by decide), hnum]
    simp only [mainSpanAux]
    rw [if_pos (show (decide ((11:ℚ) > 10 * (12/10)) || ((Nat.land 16 16) != 0)) = true by
          rw [Bool.or_eq_true]; exact Or.inr (by decide))]
    rw [if_pos (show (pySplit "Methodology").length ≤ 10 by decide)]
    rw [if_pos (show (hasKeyword "Methodology" || ((Nat.land 16 16) != 0)
          || pyIsUpper "Methodology") = true by decide)]
    rw [if_neg (show ¬ ((11:ℚ) > 10 * (3/2)) by norm_num),
        if_neg (show ¬ ((11:ℚ) > 10 * (13/10)) by norm_num)]

/-- Witness for C8: the only-if part applied to the concrete accepted
`"Methodology"` fragment. -/
theorem claim_C8_witness :
    (pySplit "Methodology").length ≤ 10
    ∧ (hasKeyword "Methodology" = true
        ∨ (mainSpanAux ⟨"F", "B", 11, 16⟩ []).flags.land 16 ≠ 0
        ∨ pyIsUpper "Methodology" = true
        ∨ (headIsUpper "Methodology" = true ∧ pyEndsWith "Methodology" '.' = false)) :=
  (claim_C8.1 ⟨"Methodology", [⟨"F", "B", 11, 16⟩], 1⟩ ⟨10, [11, 10]⟩
      ⟨"F", "B", 11, 16⟩ [] rfl (by decide) (by decide)).2.1
    (by rw [claim_C8.2])

/-- The sentence-grouping loop of `extract_subsections` is the spec's
paragraph grouping followed by the `> 10` word-count filter, for any
starting state. -/
theorem subsec_loop (tok : String → List String) :
    ∀ (sents : List String) (subs : List Subsec) (cur : List String),
      (let r := sents.foldl (subsecStep tok) (subs, cur)
       if r.2 ≠ [] then
         if (pySplit (joinSpace r.2)).length > 10 then
           r.1 ++ [⟨joinSpace r.2, generate_summary tok (joinSpace r.2)⟩]
         else r.1
       else r.1)
      = subs ++ ((specGroupParasAux cur sents).filter
            (fun p => (pySplit (joinSpace p)).length > 10)).map
          (fun p => ⟨joinSpace p, generate_summary tok (joinSpace p)⟩) := by
  intro sents
  induction sents with
  | nil =>
    intro subs cur
    simp only [List.foldl_nil, specGroupParasAux]
    by_cases hc : cur = []
    · simp [hc]
    · rw [if_pos (by simpa using hc), if_neg hc, List.filter_cons]
      by_cases hw : (pySplit (joinSpace cur)).length > 10
      · simp [hw]
      · simp [hw]
  | cons s rest ih =>
    intro subs cur
    simp only [List.foldl_cons, specGroupParasAux]
    by_cases hc : (decide ((cur ++ [s]).length ≥ 3) || pyEndsWith s ':'
        || decide ((joinSpace (cur ++ [s])).length > 200)) = true
    · rw [show subsecStep tok (subs, cur) s
          = (if (pySplit (joinSpace (cur ++ [s]))).length > 10 then
               subs ++ [⟨joinSpace (cur ++ [s]), generate_summary tok (joinSpace (cur ++ [s]))⟩]
             else subs, []) from by rw [subsecStep]; rw [if_pos hc]]
      rw [if_pos hc, ih, List.filter_cons]
      by_cases hw : (pySplit (joinSpace (cur ++ [s]))).length > 10
      · simp [hw]
      · simp [hw]
    · rw [show subsecStep tok (subs, cur) s = (subs, cur ++ [s]) from by
          rw [subsecStep]; rw [if_neg hc]]
      rw [if_neg hc, ih]

/-- C6: `extract_subsections` groups sentences into paragraphs closed at 3
sentences, a trailing colon, or more than 200 joined characters (final
open paragraph flushed), and retains a paragraph iff its word count
exceeds 10; a 10-word paragraph is dropped and an 11-word one retained. -/
theorem claim_C6 :
    (∀ (tok : String → List String) (content : String),
      extract_subsections tok content
        = ((specGroupParas (tok content)).filter
              (fun p => (pySplit (joinSpace p)).length > 10)).map
            (fun p => ⟨joinSpace p, generate_summary tok (joinSpace p)⟩))
    ∧ extract_subsections (fun s => [s]) "w1 w2 w3 w4 w5 w6 w7 w8 w9 w10" = []
    ∧ extract_subsections (fun s => [s]) "w1 w2 w3 w4 w5 w6 w7 w8 w9 w10 w11"
        = [⟨"w1 w2 w3 w4 w5 w6 w7 w8 w9 w10 w11", "w1 w2 w3 w4 w5 w6 w7 w8 w9 w10 w11"⟩] := by
  refine ⟨fun tok content => ?_, by decide, by decide⟩
  rw [extract_subsections, specGroupParas]
  exact subsec_loop tok (tok content) [] []

/-- Every block extracted from a page carries that page's number. -/
theorem extract_page_eq (page : PageData) (n : Nat) (b : Block)
    (hb : b ∈ extract_text_with_formatting page n) : b.page = n := by
  induction page with
  | nil => simp [extract_text_with_formatting] at hb
  | cons line rest ih =>
    rw [extract_text_with_formatting] at hb ih
    simp only [List.foldr_cons] at hb
    by_cases hc : pyStrip (String.join (line.map (·.text))) ≠ ""
    · rw [if_pos hc] at hb
      rcases List.mem_cons.mp hb with h1 | h2
      · subst h1; rfl
      · exact ih h2
    · rw [if_neg hc] at hb
      exact ih hb

/-- Blocks of a document are collected in non-decreasing page order. -/
theorem allBlocks_page_bounds :
    ∀ (ps : List PageData) (n : Nat),
      (∀ b ∈ extractAllBlocks ps n, n ≤ b.page)
      ∧ (extractAllBlocks ps n).Pairwise (fun a b => a.page ≤ b.page) := by
  intro ps
  induction ps with
  | nil => intro n; simp [extractAllBlocks]
  | cons p rest ih =>
    intro n
    rw [extractAllBlocks]
    constructor
    · intro b hb
      rcases List.mem_append.mp hb with h | h
      · exact (extract_page_eq p n b h).ge
      · exact le_trans (Nat.le_succ n) ((ih (n + 1)).1 b h)
    · rw [List.pairwise_append]
      refine ⟨?_, (ih (n + 1)).2, ?_⟩
      · apply List.pairwise_of_forall_mem_list
        intro a ha b hb
        rw [extract_page_eq p n a ha, extract_page_eq p n b hb]
      · intro a ha b hb
        rw [extract_page_eq p n a ha]
        exact le_trans (Nat.le_succ n) ((ih (n + 1)).1 b hb)

/-- The collected headings' pages form a sublist of the blocks' pages
(collection preserves discovery order). -/
theorem collect_pages_sublist (stats : Option FontStats) :
    ∀ (blocks : List Block) (seen : List String),
      ((collectHeadings stats blocks seen).map (·.page)).Sublist (blocks.map (·.page)) := by
  intro blocks
  induction blocks with
  | nil => intro seen; simp [collectHeadings]
  | cons b bs ih =>
    intro seen
    rw [collectHeadings]
    by_cases h1 : (is_likely_heading b stats).1
    · rw [if_pos h1]
      by_cases h2 : (cleanHeadingText b.text ≠ "" && !(seen.contains (cleanHeadingText b.text))) = true
      · rw [if_pos h2]
        simp only [List.map_cons]
        exact List.Sublist.cons₂ _ (ih _)
      · rw [if_neg h2]
        simp only [List.map_cons]
        exact List.Sublist.cons _ (ih _)
    · rw [if_neg h1]
      simp only [List.map_cons]
      exact List.Sublist.cons _ (ih _)

/-- Collected heading texts are distinct, disjoint from the seen set, and
non-empty. -/
theorem collect_texts_ok (stats : Option FontStats) :
    ∀ (blocks : List Block) (seen : List String),
      ((collectHeadings stats blocks seen).map (·.text)).Nodup
      ∧ (∀ t ∈ (collectHeadings stats blocks seen).map (·.text), t ∉ seen ∧ t ≠ "") := by
  intro blocks
  induction blocks with
  | nil => intro seen; simp [collectHeadings]
  | cons b bs ih =>
    intro seen
    rw [collectHeadings]
    by_cases h1 : (is_likely_heading b stats).1
    · rw [if_pos h1]
      by_cases h2 : (cleanHeadingText b.text ≠ "" && !(seen.contains (cleanHeadingText b.text))) = true
      · rw [if_pos h2]
        simp only [Bool.and_eq_true, decide_eq_true_eq, Bool.not_eq_true',
          ne_eq] at h2
        obtain ⟨hne, hnc⟩ := h2
        have hnotin : cleanHeadingText b.text ∉ seen := by
          intro hmem
          have hmem2 : seen.contains (cleanHeadingText b.text) = true := by simpa using hmem
          rw [hnc] at hmem2
          exact Bool.false_ne_true hmem2
        simp only [List.map_cons, List.nodup_cons]
        refine ⟨⟨?_, (ih _).1⟩, ?_⟩
        · intro hmem
          exact ((ih _).2 _ hmem).1 (List.mem_cons_self _ _)
        · intro t ht
          rcases List.mem_cons.mp ht with h | h
          · subst h; exact ⟨hnotin, hne⟩
          · have := (ih _).2 _ h
            exact ⟨fun hm => this.1 (List.mem_cons_of_mem _ hm), this.2⟩
      · rw [if_neg h2]
        exact ih _
    · rw [if_neg h1]
      exact ih _

/-- C2: the emitted outline equals the discovery-ordered heading list (the
page sort is a stable no-op on the already page-sorted collection), is
sorted by page ascending, and contains no empty or duplicate text. -/
theorem claim_C2 (pages : List PageData) :
    (process_pdf (.ok pages)).outline
      = collectHeadings (calculate_font_statistics (extractAllBlocks pages 1))
          (extractAllBlocks pages 1) []
    ∧ ((process_pdf (.ok pages)).outline).Pairwise (fun a b => a.page ≤ b.page)
    ∧ (∀ h ∈ (process_pdf (.ok pages)).outline, h.text ≠ "")
    ∧ (((process_pdf (.ok pages)).outline).map (·.text)).Nodup := by
  have hpw : (collectHeadings (calculate_font_statistics (extractAllBlocks pages 1))
      (extractAllBlocks pages 1) []).Pairwise (fun a b => a.page ≤ b.page) := by
    have h1 := (allBlocks_page_bounds pages 1).2
    have h2 : ((extractAllBlocks pages 1).map (·.page)).Pairwise (· ≤ ·) :=
      List.pairwise_map.mpr h1
    have h3 := List.Pairwise.sublist
      (collect_pages_sublist (calculate_font_statistics (extractAllBlocks pages 1))
        (extractAllBlocks pages 1) []) h2
    exact List.pairwise_map.mp h3
  have houtline : (process_pdf (.ok pages)).outline
      = collectHeadings (calculate_font_statistics (extractAllBlocks pages 1))
          (extractAllBlocks pages 1) [] := by
    show (collectHeadings (calculate_font_statistics (extractAllBlocks pages 1))
        (extractAllBlocks pages 1) []).mergeSort (fun a b => decide (a.page ≤ b.page))
      = collectHeadings (calculate_font_statistics (extractAllBlocks pages 1))
          (extractAllBlocks pages 1) []
    exact List.mergeSort_of_sorted (hpw.imp fun h => decide_eq_true h)
  have htexts := collect_texts_ok (calculate_font_statistics (extractAllBlocks pages 1))
    (extractAllBlocks pages 1) []
  rw [houtline]
  refine ⟨rfl, hpw, ?_, htexts.1⟩
  intro h hh
  exact (htexts.2 h.text (List.mem_map_of_mem (·.text) hh)).2

/-- Witness for C2: a concrete one-page document whose single accepted
heading is emitted with non-empty, duplicate-free text. -/
theorem claim_C2_witness :
    ((⟨"H1", "Introduction", 1⟩ : Heading)
        ∈ (process_pdf (.ok [[[⟨"1. Introduction", "F", 12, 0⟩]]])).outline)
    ∧ ("Introduction" : String) ≠ ""
    ∧ (((process_pdf (.ok [[[⟨"1. Introduction", "F", 12, 0⟩]]])).outline).map (·.text)).Nodup := by
  have hch : collectHeadings
      (calculate_font_statistics (extractAllBlocks [[[⟨"1. Introduction", "F", 12, 0⟩]]] 1))
      (extractAllBlocks [[[⟨"1. Introduction", "F", 12, 0⟩]]] 1) []
      = [⟨"H1", "Introduction", 1⟩] := by
    decide
  have h1 := (claim_C2 [[[⟨"1. Introduction", "F", 12, 0⟩]]]).1
  have hmem : (⟨"H1", "Introduction", 1⟩ : Heading)
      ∈ (process_pdf (.ok [[[⟨"1. Introduction", "F", 12, 0⟩]]])).outline := by
    rw [h1, hch]
    exact List.mem_singleton.mpr rfl
  exact ⟨hmem, (claim_C2 _).2.2.1 _ hmem, (claim_C2 _).2.2.2⟩

/-- C7: evaluation at the failing input for the heading-cleaning claim.
A bold body-sized bullet-Overview fragment is accepted as a heading, yet
the source's cleaning (`cleanHeadingText`, whose character class holds the
mojibake characters instead of the bullet) leaves the leading bullet in
place, while the cleaning the spec describes (`specCleanHeadingText`,
stripping digits/dots/dashes/bullets) removes it; the collection loop
therefore emits the heading text with the bullet. -/
theorem claim_C7 :
    is_likely_heading ⟨"• Overview", [⟨"• Overview", "F", 10, 16⟩], 1⟩ (some ⟨10, [10]⟩)
      = (true, 3)
    ∧ cleanHeadingText "• Overview" = "• Overview"
    ∧ specCleanHeadingText "• Overview" = "Overview"
    ∧ collectHeadings (some ⟨10, [10]⟩) [⟨"• Overview", [⟨"• Overview", "F", 10, 16⟩], 1⟩] []
        = [⟨"H3", "• Overview", 1⟩] := by
  have h1 : is_likely_heading ⟨"• Overview", [⟨"• Overview", "F", 10, 16⟩], 1⟩
      (some ⟨10, [10]⟩) = (true, 3) := by
    have hnum : firstNumberedMatch "• Overview" = none := by decide
    unfold is_likely_heading
    rw [if_neg (by decide), hnum]
    simp only [mainSpanAux]
    rw [if_pos (show (decide ((10:ℚ) > 10 * (12/10)) || ((Nat.land 16 16) != 0)) = true by
          rw [Bool.or_eq_true]; exact Or.inr (by decide))]
    rw [if_pos (show (pySplit "• Overview").length ≤ 10 by decide)]
    rw [if_pos (show (hasKeyword "• Overview" || ((Nat.land 16 16) != 0)
          || pyIsUpper "• Overview") = true by decide)]
    rw [if_neg (show ¬ ((10:ℚ) > 10 * (3/2)) by norm_num),
        if_neg (show ¬ ((10:ℚ) > 10 * (13/10)) by norm_num)]
  refine ⟨h1, by decide, by decide, ?_⟩
  rw [collectHeadings]
  simp only [h1]
  decide

/-- The per-document section loop appends one section record and that
section's subsection records, for any starting accumulator. -/
theorem gather_inner (encode : String → Vec) (cos : Vec → Vec → ℚ)
    (tok : String → List String) (jobE personaE : Vec) (dn : String) :
    ∀ (secs : List PSection) (acc : List SecRecord × List SubRecord),
      secs.foldl
        (fun acc2 sec =>
          (acc2.1 ++ [secRecordOf encode cos jobE personaE dn sec],
           acc2.2 ++ subRecordsOf encode cos tok jobE personaE dn sec))
        acc
      = (acc.1 ++ secs.map (secRecordOf encode cos jobE personaE dn),
         acc.2 ++ secs.flatMap (subRecordsOf encode cos tok jobE personaE dn)) := by
  intro secs
  induction secs with
  | nil => intro acc; simp
  | cons s rest ih =>
    intro acc
    rw [List.foldl_cons, ih]
    simp

/-- The document loop of `process_documents` accumulates exactly the
concatenation of every document's section and subsection records. -/
theorem gather_eq (encode : String → Vec) (cos : Vec → Vec → ℚ)
    (tok : String → List String) (jobE personaE : Vec) :
    ∀ (docs : List (String × List PSection)) (acc : List SecRecord × List SubRecord),
      docs.foldl
        (fun acc d =>
          d.2.foldl
            (fun acc2 sec =>
              (acc2.1 ++ [secRecordOf encode cos jobE personaE d.1 sec],
               acc2.2 ++ subRecordsOf encode cos tok jobE personaE d.1 sec))
            acc)
        acc
      = (acc.1 ++ docs.flatMap (fun d => d.2.map (secRecordOf encode cos jobE personaE d.1)),
         acc.2 ++ docs.flatMap (fun d => d.2.flatMap (subRecordsOf encode cos tok jobE personaE d.1))) := by
  intro docs
  induction docs with
  | nil => intro acc; simp
  | cons d rest ih =>
    intro acc
    rw [List.foldl_cons, gather_inner, ih]
    simp

/-- C5: every section is scored by the cosine kernel on the embedding of
its title plus the first 500 characters of its body, and every subsection
on the embedding of its summary, both against
`0.7 * jobVector + 0.3 * personaVector` (`combineVec`). -/
theorem claim_C5 (encode : String → Vec) (cos : Vec → Vec → ℚ)
    (tok : String → List String) (persona job : String)
    (docs : List (String × List PSection)) :
    (gatherCandidates encode cos tok (encode job) (encode persona) docs).1
      = docs.flatMap (fun d => d.2.map (fun sec =>
          { document := d.1
            page := sec.page
            title := sec.title
            relevance := cos (encode (sec.title ++ " " ++ takeChars 500 sec.content))
              (combineVec (encode job) (encode persona))
            content_preview := previewOf sec.content }))
    ∧ (gatherCandidates encode cos tok (encode job) (encode persona) docs).2
      = docs.flatMap (fun d => d.2.flatMap (fun sec =>
          (extract_subsections tok sec.content).enum.map (fun p =>
            { document := d.1
              section_title := sec.title
              page := sec.page
              subsection_idx := p.1
              refined_text := p.2.summary
              relevance := cos (encode p.2.summary)
                (combineVec (encode job) (encode persona)) }))) := by
  rw [gatherCandidates, gather_eq]
  exact ⟨rfl, rfl⟩

/-- Enumerated 1-based ranks of a truncated list are exactly
`1 .. min length k`. -/
theorem ranks_take_eq {α : Type} (l : List α) (k : Nat) :
    ((l.enum.map (fun p => p.1 + 1)).take k) = List.range' 1 (min l.length k) := by
  have h1 : l.enum.map (fun p : Nat × α => p.1 + 1) = List.range' 1 l.length := by
    have h2 : (fun p : Nat × α => p.1 + 1) = (fun n => n + 1) ∘ Prod.fst := rfl
    rw [h2, ← List.map_map, List.enum_map_fst, List.range'_eq_map_range]
    simp [Nat.add_comm]
  rw [h1, List.range'_eq_map_range, ← List.map_take, List.take_range,
    List.range'_eq_map_range, Nat.min_comm]

/-- The descending-score comparison is transitive. -/
theorem desc_trans {α : Type} (f : α → ℚ) :
    ∀ (a b c : α), (decide (f b ≤ f a)) = true → (decide (f c ≤ f b)) = true →
      (decide (f c ≤ f a)) = true := by
  intro a b c h1 h2
  simp only [decide_eq_true_eq] at h1 h2 ⊢
  exact le_trans h2 h1

/-- The descending-score comparison is total. -/
theorem desc_total {α : Type} (f : α → ℚ) :
    ∀ (a b : α), ((decide (f b ≤ f a)) || (decide (f a ≤ f b))) = true := by
  intro a b
  simp only [Bool.or_eq_true, decide_eq_true_eq]
  exact (le_total (f b) (f a))

/-- Stability of the descending merge sort: the items carrying any fixed
score keep their original relative order. -/
theorem mergeSort_stable_filter {α : Type} (f : α → ℚ) (l : List α) (v : ℚ) :
    (l.mergeSort (fun a b => decide (f b ≤ f a))).filter (fun a => decide (f a = v))
      = l.filter (fun a => decide (f a = v)) := by
  have hpw : (l.filter (fun a => decide (f a = v))).Pairwise
      (fun a b => (decide (f b ≤ f a)) = true) := by
    apply List.pairwise_of_forall_mem_list
    intro a ha b hb
    have hfa : f a = v := by simpa using (List.mem_filter.mp ha).2
    have hfb : f b = v := by simpa using (List.mem_filter.mp hb).2
    simp [hfa, hfb]
  have hsub : (l.filter (fun a => decide (f a = v))).Sublist
      (l.mergeSort (fun a b => decide (f b ≤ f a))) :=
    List.sublist_mergeSort (desc_trans f) (desc_total f) hpw (List.filter_sublist l)
  have hsub2 : (l.filter (fun a => decide (f a = v))).Sublist
      ((l.mergeSort (fun a b => decide (f b ≤ f a))).filter (fun a => decide (f a = v))) := by
    have h3 := List.Sublist.filter (fun a => decide (f a = v)) hsub
    have heq : (l.filter (fun a => decide (f a = v))).filter (fun a => decide (f a = v))
        = l.filter (fun a => decide (f a = v)) := by
      simp [List.filter_filter]
    rwa [heq] at h3
  have hlen : ((l.mergeSort (fun a b => decide (f b ≤ f a))).filter
      (fun a => decide (f a = v))).length = (l.filter (fun a => decide (f a = v))).length :=
    ((List.mergeSort_perm l _).filter _).length_eq
  exact (hsub2.eq_of_length hlen.symm).symm

/-- C1: the ranker sorts each pool by relevance descending with a stable
sort, assigns `importanceRank = position + 1`, drops the score in the
emitted record type, truncates to 15 sections and 20 subsections, and the
emitted ranks are exactly `1 .. min(N, cap)`. -/
theorem claim_C1 (encode : String → Vec) (cos : Vec → Vec → ℚ)
    (tok : String → List String) (persona job : String)
    (docs : List (String × List PSection)) :
    (process_documents encode cos tok persona job docs).extracted_sections.map
        (·.importance_rank)
      = List.range' 1
          (min (gatherCandidates encode cos tok (encode job) (encode persona) docs).1.length 15)
    ∧ (process_documents encode cos tok persona job docs).subsection_analysis.map
        (·.importance_rank)
      = List.range' 1
          (min (gatherCandidates encode cos tok (encode job) (encode persona) docs).2.length 20)
    ∧ (∃ sorted : List SecRecord,
        sorted.Perm (gatherCandidates encode cos tok (encode job) (encode persona) docs).1
        ∧ sorted.Pairwise (fun a b => b.relevance ≤ a.relevance)
        ∧ (∀ v : ℚ, sorted.filter (fun s => decide (s.relevance = v))
            = (gatherCandidates encode cos tok (encode job) (encode persona) docs).1.filter
                (fun s => decide (s.relevance = v)))
        ∧ (process_documents encode cos tok persona job docs).extracted_sections
            = (sorted.enum.map rankSec).take 15)
    ∧ (∃ sorted : List SubRecord,
        sorted.Perm (gatherCandidates encode cos tok (encode job) (encode persona) docs).2
        ∧ sorted.Pairwise (fun a b => b.relevance ≤ a.relevance)
        ∧ (∀ v : ℚ, sorted.filter (fun s => decide (s.relevance = v))
            = (gatherCandidates encode cos tok (encode job) (encode persona) docs).2.filter
                (fun s => decide (s.relevance = v)))
        ∧ (process_documents encode cos tok persona job docs).subsection_analysis
            = (sorted.enum.map rankSub).take 20) := by
  have hsec : (process_documents encode cos tok persona job docs).extracted_sections
      = (((gatherCandidates encode cos tok (encode job) (encode persona) docs).1.mergeSort
          descBySec).enum.map rankSec).take 15 := rfl
  have hsub : (process_documents encode cos tok persona job docs).subsection_analysis
      = (((gatherCandidates encode cos tok (encode job) (encode persona) docs).2.mergeSort
          descBySub).enum.map rankSub).take 20 := rfl
  refine ⟨?_, ?_, ?_, ?_⟩
  · rw [hsec, List.map_take, List.map_map]
    have hfun : ((fun x : SecOut => x.importance_rank) ∘ rankSec)
        = (fun p : Nat × SecRecord => p.1 + 1) := rfl
    rw [hfun, ranks_take_eq, List.length_mergeSort]
  · rw [hsub, List.map_take, List.map_map]
    have hfun : ((fun x : SubOut => x.importance_rank) ∘ rankSub)
        = (fun p : Nat × SubRecord => p.1 + 1) := rfl
    rw [hfun, ranks_take_eq, List.length_mergeSort]
  · refine ⟨(gatherCandidates encode cos tok (encode job) (encode persona) docs).1.mergeSort
        descBySec, List.mergeSort_perm _ _, ?_, ?_, hsec⟩
    · exact (List.sorted_mergeSort (desc_trans (fun s : SecRecord => s.relevance))
        (desc_total (fun s : SecRecord => s.relevance)) _).imp (fun h => of_decide_eq_true h)
    · intro v
      exact mergeSort_stable_filter (fun s : SecRecord => s.relevance) _ v
  · refine ⟨(gatherCandidates encode cos tok (encode job) (encode persona) docs).2.mergeSort
        descBySub, List.mergeSort_perm _ _, ?_, ?_, hsub⟩
    · exact (List.sorted_mergeSort (desc_trans (fun s : SubRecord => s.relevance))
        (desc_total (fun s : SubRecord => s.relevance)) _).imp (fun h => of_decide_eq_true h)
    · intro v
      exact mergeSort_stable_filter (fun s : SubRecord => s.relevance) _ v
